import Mathlib

/-!
# GitHub portfolio viewer (`src/app.js`)

A shallow embedding of the `GitHubPortfolio` class: the page it writes to is an
explicit state, every method is a function on that state, exceptions are
explicit completions, and the two network requests are answered by an explicit
description of what the provider returned.
-/

namespace GitHubPortfolio

/-! ## JavaScript values -/

/-- A JavaScript value as the program meets it: the scalars `JSON.parse` can put
in a field of a record (`undefined` stands for a field the record does not
have), and `builtin name`, a built-in object or function reached through
`Object.prototype` (never produced by `JSON.parse`). -/
inductive JSVal where
  | undefined
  | null
  | bool (b : Bool)
  | num (n : Int)
  | str (s : String)
  | builtin (name : String)
  deriving DecidableEq, Repr

/-- ToBoolean: what `||`, `?:`, `if` and `!` test. -/
def truthy : JSVal → Bool
  | .undefined => false
  | .null => false
  | .bool b => b
  | .num n => n != 0
  | .str s => s != ""
  | .builtin _ => true

/-- The operator `a || b`. -/
def jsOr (a b : JSVal) : JSVal :=
  if truthy a then a else b

/-- One piece of a template literal: a literal chunk of the source text, or a
value substituted by `${...}`. A template literal is the list of its pieces. -/
inductive Seg where
  | lit (s : String)
  | val (v : JSVal)
  deriving DecidableEq, Repr

abbrev Template := List Seg

/-- What a `throw` carries. -/
inductive JSError where
  | error (message : Template)
  | typeError
  | syntaxError
  | networkError
  deriving DecidableEq, Repr

/-! ## The page -/

/-- The element `createRepositoryCard` builds. -/
structure Card where
  className : String
  innerHTML : Template
  deriving DecidableEq, Repr

/-- The parts of the document and of the browser the program reads or writes.
The four regions are kept as the token list of their `classList`. -/
structure Page where
  /-- `#username-input`, `.value` -/
  usernameInput : String
  /-- `#loading`, `.classList` -/
  loading : List String
  /-- `#profile`, `.classList` -/
  profile : List String
  /-- `#repositories`, `.classList` -/
  repositories : List String
  /-- `#error`, `.classList` -/
  error : List String
  /-- `#user-avatar`, `.src` -/
  userAvatarSrc : JSVal
  /-- `#user-avatar`, `.alt` -/
  userAvatarAlt : Template
  /-- `#user-name`, `.textContent` -/
  userName : JSVal
  /-- `#user-username`, `.textContent` -/
  userUsername : Template
  /-- `#user-bio`, `.textContent` -/
  userBio : JSVal
  /-- `#user-location`, `.textContent` -/
  userLocationText : JSVal
  /-- `#user-location`, `.style.display` -/
  userLocationDisplay : String
  /-- `#user-joined`, `.textContent` -/
  userJoined : Template
  /-- `#user-repos`, `.textContent` -/
  userRepos : JSVal
  /-- `#user-followers`, `.textContent` -/
  userFollowers : JSVal
  /-- `#user-following`, `.textContent` -/
  userFollowing : JSVal
  /-- `#user-github-link`, `.href` -/
  userGithubLink : JSVal
  /-- `#repos-container`, its children -/
  reposContainer : List Card
  /-- the messages passed to `alert`, oldest first -/
  alerts : List String
  /-- the URLs passed to `fetch`, oldest first -/
  requests : List String
  /-- the errors passed to `console.error`, oldest first -/
  consoleErrors : List JSError
  deriving DecidableEq, Repr

/-- `classList.add(token)`: the token is appended unless it is there already. -/
def classListAdd (tokens : List String) (token : String) : List String :=
  if token ∈ tokens then tokens else tokens ++ [token]

/-- `classList.remove(token)`. -/
def classListRemove (tokens : List String) (token : String) : List String :=
  tokens.filter (fun t => t != token)

/-- `classList.contains(token)`. -/
def classListContains (tokens : List String) (token : String) : Bool :=
  decide (token ∈ tokens)

/-- A region is shown when its class list does not hold `hidden`. -/
def visible (tokens : List String) : Prop :=
  "hidden" ∉ tokens

instance (tokens : List String) : Decidable (visible tokens) := by
  unfold visible; infer_instance

def showLoading (p : Page) : Page :=
  { p with loading := classListRemove p.loading "hidden" }

def hideLoading (p : Page) : Page :=
  { p with loading := classListAdd p.loading "hidden" }

def showError (p : Page) : Page :=
  { p with error := classListRemove p.error "hidden" }

def hideError (p : Page) : Page :=
  { p with error := classListAdd p.error "hidden" }

def ensureErrorHidden (p : Page) : Page :=
  if !classListContains p.error "hidden" then
    { p with error := classListAdd p.error "hidden" }
  else p

def showProfile (p : Page) : Page :=
  { p with profile := classListRemove p.profile "hidden" }

def hideProfile (p : Page) : Page :=
  { p with profile := classListAdd p.profile "hidden" }

def showRepositories (p : Page) : Page :=
  { p with repositories := classListRemove p.repositories "hidden" }

def hideRepositories (p : Page) : Page :=
  { p with repositories := classListAdd p.repositories "hidden" }

def resetDisplay (p : Page) : Page :=
  hideError (hideRepositories (hideProfile p))

/-! ## Records fetched from the provider -/

/-- The properties of the user record that the program reads, each with the
value found there (`undefined` when the record has no such property). -/
structure UserData where
  avatar_url : JSVal
  login : JSVal
  name : JSVal
  bio : JSVal
  location : JSVal
  created_at : JSVal
  public_repos : JSVal
  followers : JSVal
  following : JSVal
  html_url : JSVal
  deriving DecidableEq, Repr

/-- The properties of a repository record that the program reads. -/
structure Repo where
  name : JSVal
  description : JSVal
  language : JSVal
  html_url : JSVal
  stargazers_count : JSVal
  forks_count : JSVal
  updated_at : JSVal
  deriving DecidableEq, Repr

/-- What `response.json()` yields for the user request, as far as the program
can tell values apart: `nullish` is JSON `null`, on which every property read
throws; `record u` is any other value, read through its properties. -/
inductive UserBody where
  | nullish
  | record (u : UserData)
  deriving DecidableEq, Repr

/-- One element of the repository collection: JSON `null`, or a value read
through its properties. -/
inductive RepoItem where
  | nullish
  | record (r : Repo)
  deriving DecidableEq, Repr

/-- What `response.json()` yields for the repository request: a JSON array, or
`notArray`, a value with no `forEach` method (`null`, an object, a scalar). -/
inductive ReposBody where
  | array (items : List RepoItem)
  | notArray
  deriving DecidableEq, Repr

/-- How one `fetch` ends: the promise rejects (no response at all), or it
resolves to a response with a status code and a body; `json` is `none` when the
body is not JSON text, so that `response.json()` rejects. -/
inductive Response (α : Type) where
  | rejected
  | status (code : Nat) (json : Option α)
  deriving DecidableEq, Repr

/-- `response.ok`: the status is in the range 200 to 299. -/
def Response.ok {α : Type} : Response α → Bool
  | .rejected => false
  | .status code _ => decide (200 ≤ code ∧ code ≤ 299)

/-- What the provider does with the two requests of one search;
`reposSettlesFirst` says which of the two promises settles first. -/
structure Network where
  user : Response UserBody
  repos : Response ReposBody
  reposSettlesFirst : Bool
  deriving DecidableEq, Repr

/-- What the browser contributes to date handling: `localTZA t` is the offset
of local time from UTC, in milliseconds, at the UTC time value `t`;
`parseOther` is what `Date` makes of a string that is not of the form
`YYYY-MM-DDTHH:mm:ssZ` read by `parseDateTime` (`none` for an invalid date);
`yearBeforeOne` is how the formatter writes a year below 1. -/
structure Host where
  localTZA : Int → Int
  parseOther : String → Option Int
  yearBeforeOne : Int → String

/-! ## Strings -/

/-- The code points `String.prototype.trim` strips: WhiteSpace and
LineTerminator of ECMA-262. -/
def isWhiteSpace (c : Char) : Bool :=
  c.toNat ∈ [0x09, 0x0A, 0x0B, 0x0C, 0x0D, 0x20, 0xA0, 0x1680, 0x2000, 0x2001,
    0x2002, 0x2003, 0x2004, 0x2005, 0x2006, 0x2007, 0x2008, 0x2009, 0x200A,
    0x2028, 0x2029, 0x202F, 0x205F, 0x3000, 0xFEFF]

/-- `String.prototype.trim`. -/
def trim (s : String) : String :=
  String.mk ((s.data.dropWhile isWhiteSpace).reverse.dropWhile isWhiteSpace).reverse

/-- The decimal digits of a natural number, most significant first; `fuel`
bounds the number of digits. -/
def digitsAux : Nat → Nat → List Char → List Char
  | 0, _, acc => acc
  | fuel + 1, n, acc =>
    let acc := Char.ofNat (48 + n % 10) :: acc
    if n / 10 = 0 then acc else digitsAux fuel (n / 10) acc

/-- Decimal text of a natural number. -/
def decimal (n : Nat) : String :=
  String.mk (digitsAux (n + 1) n [])

/-- Decimal text of an integer, as ToString gives it for an integral Number. -/
def decimalInt : Int → String
  | .ofNat n => decimal n
  | .negSucc n => "-" ++ decimal (n + 1)

/-! ## Dates (ECMA-262, Date objects; ECMA-402 with the `en-US` patterns) -/

def msPerDay : Int := 86400000

/-- Day(t): the day number of a time value. -/
def day (t : Int) : Int := t / msPerDay

/-- The year is a leap year, DaysInYear(y) = 366. -/
def isLeapYear (y : Int) : Bool :=
  if y % 4 ≠ 0 then false
  else if y % 100 ≠ 0 then true
  else if y % 400 ≠ 0 then false
  else true

/-- DayFromYear(y): the day number of the first day of year `y`. -/
def dayFromYear (y : Int) : Int :=
  365 * (y - 1970) + (y - 1969) / 4 - (y - 1901) / 100 + (y - 1601) / 400

/-- The year a day number falls in: the largest `y` with `dayFromYear y ≤ d`.
An estimate from the mean length of a year is off by at most one. -/
def yearFromDay (d : Int) : Int :=
  let y := 1970 + (400 * d) / 146097
  if d < dayFromYear y then y - 1
  else if dayFromYear (y + 1) ≤ d then y + 1
  else y

/-- YearFromTime(t). -/
def yearFromTime (t : Int) : Int := yearFromDay (day t)

/-- DayWithinYear(t). -/
def dayWithinYear (t : Int) : Int := day t - dayFromYear (yearFromTime t)

/-- MonthFromTime(t): 0 for January up to 11 for December. -/
def monthFromTime (t : Int) : Nat :=
  let d := dayWithinYear t
  let leap : Int := if isLeapYear (yearFromTime t) then 1 else 0
  if d < 31 then 0
  else if d < 59 + leap then 1
  else if d < 90 + leap then 2
  else if d < 120 + leap then 3
  else if d < 151 + leap then 4
  else if d < 181 + leap then 5
  else if d < 212 + leap then 6
  else if d < 243 + leap then 7
  else if d < 273 + leap then 8
  else if d < 304 + leap then 9
  else if d < 334 + leap then 10
  else 11

/-- The day within the year on which month `m` (0 to 11) starts. -/
def monthStart (leap : Bool) (m : Nat) : Int :=
  let l : Int := if leap then 1 else 0
  match m with
  | 0 => 0
  | 1 => 31
  | 2 => 59 + l
  | 3 => 90 + l
  | 4 => 120 + l
  | 5 => 151 + l
  | 6 => 181 + l
  | 7 => 212 + l
  | 8 => 243 + l
  | 9 => 273 + l
  | 10 => 304 + l
  | _ => 334 + l

/-- DateFromTime(t): the day of the month, from 1. -/
def dateFromTime (t : Int) : Int :=
  dayWithinYear t - monthStart (isLeapYear (yearFromTime t)) (monthFromTime t) + 1

/-- The number of days of month `m` (0 to 11) of year `y`. -/
def daysInMonth (y : Int) (m : Nat) : Nat :=
  match m with
  | 1 => if isLeapYear y then 29 else 28
  | 3 => 30
  | 5 => 30
  | 8 => 30
  | 10 => 30
  | _ => 31

/-- MakeDay(year, month, date) for a month from 0 to 11. -/
def makeDay (year : Int) (month : Nat) (date : Int) : Int :=
  dayFromYear year + monthStart (isLeapYear year) month + date - 1

/-- MakeTime(hour, min, sec, 0). -/
def makeTime (hour min sec : Int) : Int :=
  hour * 3600000 + min * 60000 + sec * 1000

/-- MakeDate(day, time). -/
def makeDate (d time : Int) : Int := d * msPerDay + time

/-- TimeClip: a time value further than 8.64e15 ms from the epoch is NaN. -/
def timeClip (t : Int) : Option Int :=
  if t.natAbs ≤ 8640000000000000 then some t else none

/-- The fields of a date-time string `YYYY-MM-DDTHH:mm:ssZ`; the month is 1 to 12. -/
structure DateFields where
  year : Nat
  month : Nat
  date : Nat
  hour : Nat
  minute : Nat
  second : Nat
  deriving DecidableEq, Repr

/-- The value of a decimal digit. -/
def digitValue (c : Char) : Option Nat :=
  if 48 ≤ c.toNat ∧ c.toNat ≤ 57 then some (c.toNat - 48) else none

/-- The value of a run of decimal digits. -/
def digitsValue (cs : List Char) : Option Nat :=
  cs.foldl (fun acc c => acc.bind fun a => (digitValue c).map fun v => 10 * a + v) (some 0)

/-- Reads a string of the form `YYYY-MM-DDTHH:mm:ssZ` of the date-time string
format, the form in which the provider sends its timestamps: a date of the
calendar and a time of day before 24:00:00. Any other string gives `none`. -/
def parseDateTime (s : String) : Option DateFields :=
  match s.data with
  | [y1, y2, y3, y4, c1, m1, m2, c2, d1, d2, c3, h1, h2, c4, n1, n2, c5, s1, s2, c6] =>
    if c1 = '-' ∧ c2 = '-' ∧ c3 = 'T' ∧ c4 = ':' ∧ c5 = ':' ∧ c6 = 'Z' then
      match digitsValue [y1, y2, y3, y4], digitsValue [m1, m2], digitsValue [d1, d2],
        digitsValue [h1, h2], digitsValue [n1, n2], digitsValue [s1, s2] with
      | some y, some m, some d, some h, some n, some sec =>
        if 1 ≤ m ∧ m ≤ 12 ∧ 1 ≤ d ∧ d ≤ daysInMonth y (m - 1) ∧ h ≤ 23 ∧ n ≤ 59 ∧ sec ≤ 59 then
          some ⟨y, m, d, h, n, sec⟩
        else none
      | _, _, _, _, _, _ => none
    else none
  | _ => none

/-- The UTC time value of the fields of a date-time string. -/
def DateFields.timeValue (f : DateFields) : Int :=
  makeDate (makeDay f.year (f.month - 1) f.date) (makeTime f.hour f.minute f.second)

/-- `Date.parse(s)`: `none` stands for NaN. -/
def dateParse (host : Host) (s : String) : Option Int :=
  match parseDateTime s with
  | some f => timeClip f.timeValue
  | none => host.parseOther s

/-- The time value of `new Date(v)`, `none` standing for NaN (an invalid date):
a string is parsed, any other value is converted to a number. -/
def newDate (host : Host) : JSVal → Option Int
  | .str s => dateParse host s
  | .undefined => none
  | .null => timeClip 0
  | .bool b => timeClip (if b then 1 else 0)
  | .num n => timeClip n
  | .builtin _ => none

/-- LocalTime(t). -/
def localTime (host : Host) (t : Int) : Int := t + host.localTZA t

def monthLong : Nat → String
  | 0 => "January"
  | 1 => "February"
  | 2 => "March"
  | 3 => "April"
  | 4 => "May"
  | 5 => "June"
  | 6 => "July"
  | 7 => "August"
  | 8 => "September"
  | 9 => "October"
  | 10 => "November"
  | _ => "December"

def monthShort : Nat → String
  | 0 => "Jan"
  | 1 => "Feb"
  | 2 => "Mar"
  | 3 => "Apr"
  | 4 => "May"
  | 5 => "Jun"
  | 6 => "Jul"
  | 7 => "Aug"
  | 8 => "Sep"
  | 9 => "Oct"
  | 10 => "Nov"
  | _ => "Dec"

/-- The year as the formatter writes it for `year: numeric`. -/
def yearText (host : Host) (y : Int) : String :=
  if 1 ≤ y then decimal y.toNat else host.yearBeforeOne y

/-- `toLocaleDateString('en-US', { year: 'numeric', month: 'long' })` on a date
with the given time value. -/
def toLocaleDateStringYearMonth (host : Host) : Option Int → String
  | none => "Invalid Date"
  | some t =>
    let lt := localTime host t
    monthLong (monthFromTime lt) ++ " " ++ yearText host (yearFromTime lt)

/-- `toLocaleDateString('en-US', { year: 'numeric', month: 'short', day: 'numeric' })`
on a date with the given time value. -/
def toLocaleDateStringYearMonthDay (host : Host) : Option Int → String
  | none => "Invalid Date"
  | some t =>
    let lt := localTime host t
    monthShort (monthFromTime lt) ++ " " ++ decimal (dateFromTime lt).toNat ++ ", "
      ++ yearText host (yearFromTime lt)

/-! ## The viewer -/

/-- The field `apiBase` the constructor sets. -/
def apiBase : String := "https://api.github.com"

/-- The own properties of the object `languageColors` the constructor sets. -/
def languageColors : List (String × String) :=
  [("JavaScript", "#f1e05a"),
   ("Python", "#3572A5"),
   ("Java", "#b07219"),
   ("TypeScript", "#2b7489"),
   ("HTML", "#e34c26"),
   ("CSS", "#563d7c"),
   ("C++", "#f34b7d"),
   ("C", "#555555"),
   ("Go", "#00ADD8"),
   ("Rust", "#dea584"),
   ("PHP", "#4F5D95"),
   ("Ruby", "#701516"),
   ("Swift", "#ffac45"),
   ("Kotlin", "#F18E33"),
   ("C#", "#239120"),
   ("Shell", "#89e051")]

/-- The property names every object literal inherits from `Object.prototype`;
each holds a function or, for `__proto__`, the prototype object itself. -/
def objectPrototypeKeys : List String :=
  ["constructor", "__defineGetter__", "__defineSetter__", "hasOwnProperty",
   "__lookupGetter__", "__lookupSetter__", "isPrototypeOf", "propertyIsEnumerable",
   "toString", "valueOf", "__proto__", "toLocaleString"]

/-- ToPropertyKey: the string a value stands for when it is used as `obj[value]`. -/
def toPropertyKey : JSVal → String
  | .undefined => "undefined"
  | .null => "null"
  | .bool b => if b then "true" else "false"
  | .num n => decimalInt n
  | .str s => s
  | .builtin name => name

/-- The property read `this.languageColors[key]`: an own property of the
table, else a property inherited from `Object.prototype`, else `undefined`. -/
def languageColorsGet (key : JSVal) : JSVal :=
  match languageColors.lookup (toPropertyKey key) with
  | some color => .str color
  | none =>
    if toPropertyKey key ∈ objectPrototypeKeys then .builtin (toPropertyKey key)
    else .undefined

/-- The constant `languageColor` of `createRepositoryCard`. -/
def languageColor (repo : Repo) : JSVal :=
  jsOr (languageColorsGet repo.language) (.str "#8b949e")

/-- The constant `updatedDate` of `createRepositoryCard`. -/
def updatedDate (host : Host) (repo : Repo) : String :=
  toLocaleDateStringYearMonthDay host (newDate host repo.updated_at)

/-- The conditional piece of the card, `repo.language ? ... : ''`. -/
def languageIndicator (repo : Repo) : Template :=
  if truthy repo.language then
    [.lit "\n                    <div class=\"repo-language\">\n                        <span class=\"language-dot\" style=\"background-color: ",
     .val (languageColor repo),
     .lit "\"></span>\n                        <span>",
     .val repo.language,
     .lit "</span>\n                    </div>\n                "]
  else []

/-- The template literal assigned to `card.innerHTML`. -/
def cardInnerHTML (host : Host) (repo : Repo) : Template :=
  [.lit "\n            <div class=\"repo-header\">\n                <a href=\"",
   .val repo.html_url,
   .lit "\" target=\"_blank\" class=\"repo-name\">\n                    ",
   .val repo.name,
   .lit "\n                </a>\n            </div>\n            <p class=\"repo-description\">\n                ",
   .val (jsOr repo.description (.str "No description available")),
   .lit "\n            </p>\n            <div class=\"repo-footer\">\n                "]
  ++ languageIndicator repo ++
  [.lit "\n                <div class=\"repo-stats\">\n                    <div class=\"repo-stat\">\n                        <span>⭐</span>\n                        <span>",
   .val repo.stargazers_count,
   .lit "</span>\n                    </div>\n                    <div class=\"repo-stat\">\n                        <span>🔀</span>\n                        <span>",
   .val repo.forks_count,
   .lit "</span>\n                    </div>\n                </div>\n                <div class=\"repo-updated\">\n                    Updated ",
   .val (.str (updatedDate host repo)),
   .lit "\n                </div>\n            </div>\n        "]

/-- The method `createRepositoryCard`: reading `repo.language` throws on `null`. -/
def createRepositoryCard (host : Host) : RepoItem → Except JSError Card
  | .nullish => .error .typeError
  | .record repo => .ok { className := "card repo-card", innerHTML := cardInnerHTML host repo }

/-- How a method that writes to the page ends: normally, or by a `throw`; in
both cases with the page as the method left it. -/
inductive Completion where
  | normal (p : Page)
  | thrown (p : Page) (e : JSError)
  deriving DecidableEq, Repr

/-- The page a completion leaves. -/
def Completion.page : Completion → Page
  | .normal p => p
  | .thrown p _ => p

/-- The constant `joinDate` of `displayProfile`. -/
def joinDate (host : Host) (userData : UserData) : String :=
  toLocaleDateStringYearMonth host (newDate host userData.created_at)

/-- The method `displayProfile`: the first statement throws when `userData`
is `null`, before anything is written. -/
def displayProfile (host : Host) (userData : UserBody) (p : Page) : Completion :=
  match userData with
  | .nullish => .thrown p .typeError
  | .record u =>
    let p := { p with userAvatarSrc := u.avatar_url }
    let p := { p with userAvatarAlt := [.val u.login, .lit "\x27s avatar"] }
    let p := { p with userName := jsOr u.name u.login }
    let p := { p with userUsername := [.lit "@", .val u.login] }
    let p := { p with userBio := jsOr u.bio (.str "No bio available") }
    let p :=
      if truthy u.location then
        { p with userLocationText := u.location, userLocationDisplay := "inline" }
      else
        { p with userLocationDisplay := "none" }
    let p := { p with userJoined := [.lit "Joined ", .val (.str (joinDate host u))] }
    let p := { p with userRepos := u.public_repos }
    let p := { p with userFollowers := u.followers }
    let p := { p with userFollowing := u.following }
    let p := { p with userGithubLink := u.html_url }
    .normal (showProfile p)

/-- The loop `reposData.forEach(repo => ...)`: each card is appended to the
container; a throw inside the callback ends the loop where it is. -/
def appendCards (host : Host) : List RepoItem → Page → Completion
  | [], p => .normal p
  | repo :: rest, p =>
    match createRepositoryCard host repo with
    | .error e => .thrown p e
    | .ok repoCard =>
      appendCards host rest { p with reposContainer := p.reposContainer ++ [repoCard] }

/-- The method `displayRepositories`: the container is emptied, then
`reposData.forEach` is called, which throws when `reposData` has no such method. -/
def displayRepositories (host : Host) (reposData : ReposBody) (p : Page) : Completion :=
  let p := { p with reposContainer := [] }
  match reposData with
  | .notArray => .thrown p .typeError
  | .array items =>
    match appendCards host items p with
    | .thrown p e => .thrown p e
    | .normal p => .normal (showRepositories p)

/-- The method `fetchUserData`: the request is issued; its outcome is the
value the returned promise settles to. -/
def fetchUserData (net : Network) (username : String) (p : Page) :
    Page × Except JSError UserBody :=
  let p := { p with requests := p.requests ++ [apiBase ++ "/users/" ++ username] }
  match net.user with
  | .rejected => (p, .error .networkError)
  | .status code json =>
    if !net.user.ok then
      (p, .error (.error [.lit "User not found: ", .val (.num code)]))
    else
      match json with
      | none => (p, .error .syntaxError)
      | some body => (p, .ok body)

/-- The method `fetchUserRepositories`. -/
def fetchUserRepositories (net : Network) (username : String) (p : Page) :
    Page × Except JSError ReposBody :=
  let p := { p with requests := p.requests ++
    [apiBase ++ "/users/" ++ username ++ "/repos?sort=updated&per_page=8"] }
  match net.repos with
  | .rejected => (p, .error .networkError)
  | .status code json =>
    if !net.repos.ok then
      (p, .error (.error [.lit "Repositories not found: ", .val (.num code)]))
    else
      match json with
      | none => (p, .error .syntaxError)
      | some body => (p, .ok body)

/-- `Promise.all` of the two promises: both values when both fulfil, else the
reason of the promise that rejects first. -/
def promiseAll (secondFirst : Bool) :
    Except JSError UserBody → Except JSError ReposBody → Except JSError (UserBody × ReposBody)
  | .ok userData, .ok reposData => .ok (userData, reposData)
  | .error e, .ok _ => .error e
  | .ok _, .error e => .error e
  | .error e1, .error e2 => .error (if secondFirst then e2 else e1)

/-- The `catch` block of `handleSearch`. -/
def handleSearchCatch (p : Page) (error : JSError) : Page :=
  let p := hideLoading p
  let p := showError p
  { p with consoleErrors := p.consoleErrors ++ [error] }

/-- The method `handleSearch`, from the call to the moment the promise it
returns settles, for requests that settle as `net` says. -/
def handleSearch (host : Host) (net : Network) (p : Page) : Page :=
  let username := trim p.usernameInput
  if username = "" then
    { p with alerts := p.alerts ++ ["Please enter a GitHub username"] }
  else
    let p := resetDisplay p
    let p := showLoading p
    let (p, user) := fetchUserData net username p
    let (p, repos) := fetchUserRepositories net username p
    match promiseAll net.reposSettlesFirst user repos with
    | .error error => handleSearchCatch p error
    | .ok (userData, reposData) =>
      let p := hideLoading p
      let p := ensureErrorHidden p
      match displayProfile host userData p with
      | .thrown p error => handleSearchCatch p error
      | .normal p =>
        match displayRepositories host reposData p with
        | .thrown p error => handleSearchCatch p error
        | .normal p => p


/-! ## Sample data -/

/-- A page as it may stand before a search: the four regions hidden, nothing
rendered yet. -/
def samplePage : Page :=
  { usernameInput := "octocat"
    loading := ["hidden"]
    profile := ["card", "hidden"]
    repositories := ["hidden"]
    error := ["card", "hidden"]
    userAvatarSrc := .str ""
    userAvatarAlt := []
    userName := .str ""
    userUsername := []
    userBio := .str ""
    userLocationText := .str ""
    userLocationDisplay := ""
    userJoined := []
    userRepos := .str ""
    userFollowers := .str ""
    userFollowing := .str ""
    userGithubLink := .str ""
    reposContainer := []
    alerts := []
    requests := []
    consoleErrors := [] }

/-- A user record as the provider sends it. -/
def sampleUser : UserData :=
  { avatar_url := .str "https://avatars.githubusercontent.com/u/583231?v=4"
    login := .str "octocat"
    name := .str "The Octocat"
    bio := .null
    location := .str "San Francisco"
    created_at := .str "2008-01-14T04:33:35Z"
    public_repos := .num 8
    followers := .num 9000
    following := .num 9
    html_url := .str "https://github.com/octocat" }

/-- A repository record as the provider sends it. -/
def sampleRepo : Repo :=
  { name := .str "Hello-World"
    description := .str "My first repository on GitHub!"
    language := .null
    html_url := .str "https://github.com/octocat/Hello-World"
    stargazers_count := .num 2500
    forks_count := .num 2300
    updated_at := .str "2023-03-05T10:00:00Z" }

/-- A browser whose local time is at a fixed offset from UTC, in minutes. -/
def fixedOffsetHost (minutes : Int) : Host :=
  { localTZA := fun _ => minutes * 60000
    parseOther := fun _ => none
    yearBeforeOne := fun y => decimalInt y }

/-! # Theorems -/

/-! ## Class lists -/

theorem classListAdd_mem (tokens : List String) (token : String) :
    token ∈ classListAdd tokens token := by
  unfold classListAdd
  split_ifs with h
  · exact h
  · simp

theorem classListRemove_not_mem (tokens : List String) (token : String) :
    token ∉ classListRemove tokens token := by
  simp [classListRemove, List.mem_filter]

theorem classListAdd_of_mem {tokens : List String} {token : String} (h : token ∈ tokens) :
    classListAdd tokens token = tokens := by
  simp [classListAdd, h]

theorem classListRemove_of_not_mem {tokens : List String} {token : String}
    (h : token ∉ tokens) : classListRemove tokens token = tokens := by
  unfold classListRemove
  rw [List.filter_eq_self]
  intro t ht
  have : t ≠ token := fun e => h (e ▸ ht)
  simpa using this

theorem classListAdd_idem (tokens : List String) (token : String) :
    classListAdd (classListAdd tokens token) token = classListAdd tokens token :=
  classListAdd_of_mem (classListAdd_mem tokens token)

theorem classListRemove_idem (tokens : List String) (token : String) :
    classListRemove (classListRemove tokens token) token = classListRemove tokens token :=
  classListRemove_of_not_mem (classListRemove_not_mem tokens token)

/-- C10: each of the eight show and hide operations is idempotent, showing a
region that is visible leaves the page as it is, and so does hiding a region
that is hidden. -/
theorem show_hide_idempotent (p : Page) :
    (showLoading (showLoading p) = showLoading p
      ∧ hideLoading (hideLoading p) = hideLoading p
      ∧ showProfile (showProfile p) = showProfile p
      ∧ hideProfile (hideProfile p) = hideProfile p
      ∧ showRepositories (showRepositories p) = showRepositories p
      ∧ hideRepositories (hideRepositories p) = hideRepositories p
      ∧ showError (showError p) = showError p
      ∧ hideError (hideError p) = hideError p)
    ∧ ((visible p.loading → showLoading p = p)
      ∧ (visible p.profile → showProfile p = p)
      ∧ (visible p.repositories → showRepositories p = p)
      ∧ (visible p.error → showError p = p))
    ∧ ((¬ visible p.loading → hideLoading p = p)
      ∧ (¬ visible p.profile → hideProfile p = p)
      ∧ (¬ visible p.repositories → hideRepositories p = p)
      ∧ (¬ visible p.error → hideError p = p)) := by
  refine ⟨⟨?_, ?_, ?_, ?_, ?_, ?_, ?_, ?_⟩, ⟨?_, ?_, ?_, ?_⟩, ⟨?_, ?_, ?_, ?_⟩⟩
  · simp only [showLoading, classListRemove_idem]
  · simp only [hideLoading, classListAdd_idem]
  · simp only [showProfile, classListRemove_idem]
  · simp only [hideProfile, classListAdd_idem]
  · simp only [showRepositories, classListRemove_idem]
  · simp only [hideRepositories, classListAdd_idem]
  · simp only [showError, classListRemove_idem]
  · simp only [hideError, classListAdd_idem]
  · intro h
    simp only [showLoading, classListRemove_of_not_mem h]
  · intro h
    simp only [showProfile, classListRemove_of_not_mem h]
  · intro h
    simp only [showRepositories, classListRemove_of_not_mem h]
  · intro h
    simp only [showError, classListRemove_of_not_mem h]
  · intro h
    simp only [hideLoading, classListAdd_of_mem (not_not.mp h)]
  · intro h
    simp only [hideProfile, classListAdd_of_mem (not_not.mp h)]
  · intro h
    simp only [hideRepositories, classListAdd_of_mem (not_not.mp h)]
  · intro h
    simp only [hideError, classListAdd_of_mem (not_not.mp h)]

/-! ## Searching -/

theorem dropWhile_eq_nil_of_forall {α : Type} (f : α → Bool) :
    ∀ l : List α, (∀ a ∈ l, f a = true) → l.dropWhile f = []
  | [], _ => rfl
  | a :: l, h => by
    have ha : f a = true := h a (List.mem_cons_self a l)
    simp only [List.dropWhile_cons, ha, if_true]
    exact dropWhile_eq_nil_of_forall f l (fun b hb => h b (List.mem_cons_of_mem a hb))

theorem trim_of_forall_whiteSpace (s : String)
    (h : ∀ c ∈ s.data, isWhiteSpace c = true) : trim s = "" := by
  unfold trim
  rw [dropWhile_eq_nil_of_forall isWhiteSpace s.data h]
  rfl

/-- C3: when the input is empty or holds only white space, `handleSearch`
issues no request and leaves the four regions and everything rendered as they
were: the one thing that happens is the prompt. -/
theorem handleSearch_blank_input (host : Host) (net : Network) (p : Page)
    (h : ∀ c ∈ p.usernameInput.data, isWhiteSpace c = true) :
    handleSearch host net p
        = { p with alerts := p.alerts ++ ["Please enter a GitHub username"] }
      ∧ (handleSearch host net p).requests = p.requests
      ∧ (handleSearch host net p).loading = p.loading
      ∧ (handleSearch host net p).profile = p.profile
      ∧ (handleSearch host net p).repositories = p.repositories
      ∧ (handleSearch host net p).error = p.error := by
  have e : handleSearch host net p
      = { p with alerts := p.alerts ++ ["Please enter a GitHub username"] } := by
    unfold handleSearch
    simp only [trim_of_forall_whiteSpace p.usernameInput h, if_true]
  rw [e]
  exact ⟨rfl, rfl, rfl, rfl, rfl, rfl⟩

theorem fetchUserData_requests (net : Network) (username : String) (p : Page) :
    (fetchUserData net username p).1
      = { p with requests := p.requests ++ [apiBase ++ "/users/" ++ username] } := by
  unfold fetchUserData
  cases hu : net.user with
  | rejected => rfl
  | status code json =>
    simp only []
    split_ifs
    · rfl
    · cases json <;> rfl

theorem fetchUserRepositories_requests (net : Network) (username : String) (p : Page) :
    (fetchUserRepositories net username p).1
      = { p with requests := p.requests ++
          [apiBase ++ "/users/" ++ username ++ "/repos?sort=updated&per_page=8"] } := by
  unfold fetchUserRepositories
  cases hu : net.repos with
  | rejected => rfl
  | status code json =>
    simp only []
    split_ifs
    · rfl
    · cases json <;> rfl

theorem fetchUserData_of_not_ok (net : Network) (username : String) (p : Page)
    (h : net.user.ok = false) : ∃ e, (fetchUserData net username p).2 = .error e := by
  unfold fetchUserData
  cases hu : net.user with
  | rejected => exact ⟨_, rfl⟩
  | status code json =>
    rw [hu] at h
    simp only [h]
    exact ⟨_, rfl⟩

theorem fetchUserRepositories_of_not_ok (net : Network) (username : String) (p : Page)
    (h : net.repos.ok = false) : ∃ e, (fetchUserRepositories net username p).2 = .error e := by
  unfold fetchUserRepositories
  cases hu : net.repos with
  | rejected => exact ⟨_, rfl⟩
  | status code json =>
    rw [hu] at h
    simp only [h]
    exact ⟨_, rfl⟩

theorem promiseAll_error_left (b : Bool) (e : JSError) (r : Except JSError ReposBody) :
    ∃ e2, promiseAll b (.error e) r = .error e2 := by
  cases r with
  | error e1 => exact ⟨_, rfl⟩
  | ok v => exact ⟨_, rfl⟩

theorem promiseAll_error_right (b : Bool) (e : JSError) (u : Except JSError UserBody) :
    ∃ e2, promiseAll b u (.error e) = .error e2 := by
  cases u with
  | error e1 => exact ⟨_, rfl⟩
  | ok v => exact ⟨_, rfl⟩

/-- The page when both requests of a search have been issued. -/
theorem handleSearch_nonblank (host : Host) (net : Network) (p : Page)
    (h : trim p.usernameInput ≠ "") :
    handleSearch host net p =
      let username := trim p.usernameInput
      let p1 := showLoading (resetDisplay p)
      let p2 := { p1 with requests := p1.requests ++ [apiBase ++ "/users/" ++ username] }
      let p3 := { p2 with requests := p2.requests ++
          [apiBase ++ "/users/" ++ username ++ "/repos?sort=updated&per_page=8"] }
      match promiseAll net.reposSettlesFirst (fetchUserData net username p1).2
          (fetchUserRepositories net username p2).2 with
      | .error error => handleSearchCatch p3 error
      | .ok (userData, reposData) =>
        match displayProfile host userData (ensureErrorHidden (hideLoading p3)) with
        | .thrown q error => handleSearchCatch q error
        | .normal q =>
          match displayRepositories host reposData q with
          | .thrown q error => handleSearchCatch q error
          | .normal q => q := by
  unfold handleSearch
  simp only [h, if_false]
  have e1 := fetchUserData_requests net (trim p.usernameInput) (showLoading (resetDisplay p))
  rcases hu : fetchUserData net (trim p.usernameInput) (showLoading (resetDisplay p)) with ⟨q1, user⟩
  rw [hu] at e1
  simp only at e1
  subst e1
  have e2 := fetchUserRepositories_requests net (trim p.usernameInput)
    { showLoading (resetDisplay p) with requests := (showLoading (resetDisplay p)).requests ++
        [apiBase ++ "/users/" ++ trim p.usernameInput] }
  rcases hr : fetchUserRepositories net (trim p.usernameInput)
    { showLoading (resetDisplay p) with requests := (showLoading (resetDisplay p)).requests ++
        [apiBase ++ "/users/" ++ trim p.usernameInput] } with ⟨q2, repos⟩
  rw [hr] at e2
  simp only at e2
  subst e2
  rfl

/-- C2: when the user name is not blank and at least one of the two requests
fails (it rejects, or its response is not ok), the search ends with the error
region visible and the profile, repositories and loading regions hidden,
whatever the other request did; apart from the four regions only the request
log and the console change, so nothing fetched is rendered. -/
theorem handleSearch_request_failure (host : Host) (net : Network) (p : Page)
    (hname : trim p.usernameInput ≠ "")
    (hfail : net.user.ok = false ∨ net.repos.ok = false) :
    (∃ error, handleSearch host net p =
      { p with
        loading := classListAdd (classListRemove p.loading "hidden") "hidden"
        profile := classListAdd p.profile "hidden"
        repositories := classListAdd p.repositories "hidden"
        error := classListRemove (classListAdd p.error "hidden") "hidden"
        requests := p.requests ++ [apiBase ++ "/users/" ++ trim p.usernameInput,
          apiBase ++ "/users/" ++ trim p.usernameInput ++ "/repos?sort=updated&per_page=8"]
        consoleErrors := p.consoleErrors ++ [error] })
      ∧ visible (handleSearch host net p).error
      ∧ ¬ visible (handleSearch host net p).profile
      ∧ ¬ visible (handleSearch host net p).repositories
      ∧ ¬ visible (handleSearch host net p).loading := by
  have hex : ∃ error, handleSearch host net p =
      { p with
        loading := classListAdd (classListRemove p.loading "hidden") "hidden"
        profile := classListAdd p.profile "hidden"
        repositories := classListAdd p.repositories "hidden"
        error := classListRemove (classListAdd p.error "hidden") "hidden"
        requests := p.requests ++ [apiBase ++ "/users/" ++ trim p.usernameInput,
          apiBase ++ "/users/" ++ trim p.usernameInput ++ "/repos?sort=updated&per_page=8"]
        consoleErrors := p.consoleErrors ++ [error] } := by
    rw [handleSearch_nonblank host net p hname]
    simp only []
    have hp : ∃ e, promiseAll net.reposSettlesFirst
        (fetchUserData net (trim p.usernameInput) (showLoading (resetDisplay p))).2
        (fetchUserRepositories net (trim p.usernameInput)
          { showLoading (resetDisplay p) with requests :=
              (showLoading (resetDisplay p)).requests ++
                [apiBase ++ "/users/" ++ trim p.usernameInput] }).2 = .error e := by
      rcases hfail with hf | hf
      · obtain ⟨e, he⟩ := fetchUserData_of_not_ok net (trim p.usernameInput)
          (showLoading (resetDisplay p)) hf
        rw [he]
        exact promiseAll_error_left _ _ _
      · obtain ⟨e, he⟩ := fetchUserRepositories_of_not_ok net (trim p.usernameInput)
          { showLoading (resetDisplay p) with requests :=
              (showLoading (resetDisplay p)).requests ++
                [apiBase ++ "/users/" ++ trim p.usernameInput] } hf
        rw [he]
        exact promiseAll_error_right _ _ _
    obtain ⟨e, he⟩ := hp
    refine ⟨e, ?_⟩
    rw [he]
    simp [handleSearchCatch, showLoading, resetDisplay, hideError,
      hideRepositories, hideProfile, hideLoading, showError]
  obtain ⟨e, he⟩ := hex
  refine ⟨⟨e, he⟩, ?_⟩
  rw [he]
  refine ⟨?_, ?_, ?_, ?_⟩
  · exact classListRemove_not_mem _ _
  · exact not_not.mpr (classListAdd_mem _ _)
  · exact not_not.mpr (classListAdd_mem _ _)
  · exact not_not.mpr (classListAdd_mem _ _)

theorem appendCards_records (host : Host) :
    ∀ (repos : List Repo) (p : Page),
      appendCards host (repos.map RepoItem.record) p
        = .normal { p with reposContainer := (p.reposContainer ++
            repos.map (fun repo =>
              { className := "card repo-card", innerHTML := cardInnerHTML host repo })) }
  | [], p => by simp [appendCards]
  | repo :: rest, p => by
    simp only [List.map_cons, appendCards, createRepositoryCard]
    rw [appendCards_records host rest]
    simp

theorem displayRepositories_records (host : Host) (repos : List Repo) (p : Page) :
    displayRepositories host (.array (repos.map RepoItem.record)) p
      = .normal { p with
          repositories := classListRemove p.repositories "hidden"
          reposContainer := repos.map (fun repo =>
            { className := "card repo-card", innerHTML := cardInnerHTML host repo }) } := by
  unfold displayRepositories
  simp only [appendCards_records, showRepositories, List.nil_append]

/-- C1: when the user name is not blank and both requests are answered with an
ok status, a user record and an array of repository records, the search ends
with the profile and repositories regions visible and the error and loading
regions hidden, whatever the page was before. -/
theorem handleSearch_success (host : Host) (p : Page) (u : UserData) (repos : List Repo)
    (userStatus reposStatus : Nat) (reposFirst : Bool)
    (hname : trim p.usernameInput ≠ "")
    (huser : 200 ≤ userStatus ∧ userStatus ≤ 299)
    (hrepos : 200 ≤ reposStatus ∧ reposStatus ≤ 299) :
    visible (handleSearch host
        ⟨.status userStatus (some (.record u)),
         .status reposStatus (some (.array (repos.map RepoItem.record))), reposFirst⟩ p).profile
      ∧ visible (handleSearch host
        ⟨.status userStatus (some (.record u)),
         .status reposStatus (some (.array (repos.map RepoItem.record))), reposFirst⟩
          p).repositories
      ∧ ¬ visible (handleSearch host
        ⟨.status userStatus (some (.record u)),
         .status reposStatus (some (.array (repos.map RepoItem.record))), reposFirst⟩ p).error
      ∧ ¬ visible (handleSearch host
        ⟨.status userStatus (some (.record u)),
         .status reposStatus (some (.array (repos.map RepoItem.record))), reposFirst⟩
          p).loading := by
  rw [handleSearch_nonblank host _ p hname]
  simp only [fetchUserData, fetchUserRepositories, Response.ok, huser, hrepos, and_self,
    decide_True, Bool.not_true, Bool.false_eq_true, if_false, promiseAll, displayProfile,
    displayRepositories_records]
  refine ⟨?_, ?_, ?_, ?_⟩
  · split_ifs <;> exact classListRemove_not_mem _ _
  · exact classListRemove_not_mem _ _
  · split_ifs <;>
      simp [visible, showProfile, ensureErrorHidden, hideLoading, showLoading, resetDisplay,
        hideError, classListContains, classListAdd_mem]
  · split_ifs <;>
      simp [visible, showProfile, ensureErrorHidden, hideLoading, showLoading, resetDisplay,
        hideError, classListContains, classListAdd_mem]

/-! ## Rendering -/

/-- C5: whatever the container held, after `displayRepositories` it holds
exactly the cards `createRepositoryCard` builds for the repositories of the
collection, one each and in the order of the collection; so a render of eight
repositories followed by a render of three leaves three cards. -/
theorem displayRepositories_replaces (host : Host) (p : Page) (repos : List Repo) :
    (∃ q, displayRepositories host (.array (repos.map RepoItem.record)) p = .normal q
        ∧ (q.reposContainer.map fun card => (Except.ok card : Except JSError Card))
            = repos.map (fun repo => createRepositoryCard host (.record repo))
        ∧ q.reposContainer.length = repos.length)
      ∧ (∀ first : List Repo, first.length = 8 → repos.length = 3 →
          (displayRepositories host (.array (repos.map RepoItem.record))
            (displayRepositories host (.array (first.map RepoItem.record)) p).page
              ).page.reposContainer.length = 3) := by
  refine ⟨⟨_, displayRepositories_records host repos p, ?_, ?_⟩, ?_⟩
  · simp [createRepositoryCard, Function.comp_def]
  · simp
  · intro first _ h3
    rw [displayRepositories_records, displayRepositories_records]
    simp [Completion.page, h3]

theorem languageColors_truthy :
    ∀ entry ∈ languageColors, truthy (.str entry.2) = true := by
  decide

/-- The colour of a language that is an own key of the table, of a language
string that is neither in the table nor inherited, and of a missing language. -/
theorem languageColor_table (repo : Repo) :
    (∀ name color, repo.language = .str name → languageColors.lookup name = some color →
        languageColor repo = .str color)
      ∧ (∀ name, repo.language = .str name → languageColors.lookup name = none →
          name ∉ objectPrototypeKeys → languageColor repo = .str "#8b949e")
      ∧ (repo.language = .undefined ∨ repo.language = .null →
          languageColor repo = .str "#8b949e") := by
  refine ⟨?_, ?_, ?_⟩
  · intro name color hl hc
    have hmem : (name, color) ∈ languageColors := by
      obtain ⟨l₁, l₂, hl12, _⟩ := List.lookup_eq_some_iff.mp hc
      rw [hl12]
      simp
    have ht := languageColors_truthy (name, color) hmem
    simp only [languageColor, languageColorsGet, hl, toPropertyKey, hc, jsOr] at ht ⊢
    simp [ht]
  · intro name hl hc hn
    simp [languageColor, languageColorsGet, hl, toPropertyKey, hc, hn, jsOr, truthy]
  · rintro (h | h) <;>
      simp [languageColor, languageColorsGet, h, toPropertyKey, jsOr, truthy, languageColors,
        List.lookup, objectPrototypeKeys]

/-- C6 at a language named like an inherited property: the lookup finds the
built-in `constructor` of `Object.prototype`, which is truthy, so the colour is
that built-in and not the neutral gray. -/
theorem languageColor_inherited_key :
    languageColors.lookup "constructor" = none
      ∧ languageColor ⟨.str "demo", .null, .str "constructor", .str "https://example.test",
          .num 0, .num 0, .str "2023-03-05T10:00:00Z"⟩ = .builtin "constructor"
      ∧ languageColor ⟨.str "demo", .null, .str "constructor", .str "https://example.test",
          .num 0, .num 0, .str "2023-03-05T10:00:00Z"⟩ ≠ .str "#8b949e" := by
  decide

/-- C7: the card holds the language indicator (the dot with its colour and the
label) exactly when the repository has a language set; without one the
indicator is left out altogether and the card still shows the link and name,
the description, the star and fork counts and the updated date. A language is
set when `repo.language` is truthy: `null`, a field the record lacks and the
empty string count as not set. -/
theorem createRepositoryCard_language_indicator (host : Host) (repo : Repo) :
    (Seg.lit "\n                    <div class=\"repo-language\">\n                        <span class=\"language-dot\" style=\"background-color: "
          ∈ cardInnerHTML host repo ↔ truthy repo.language = true)
      ∧ (truthy repo.language = true →
          [Seg.lit "\n                    <div class=\"repo-language\">\n                        <span class=\"language-dot\" style=\"background-color: ",
           Seg.val (languageColor repo),
           Seg.lit "\"></span>\n                        <span>",
           Seg.val repo.language,
           Seg.lit "</span>\n                    </div>\n                "]
            <:+: cardInnerHTML host repo)
      ∧ (truthy repo.language = false →
          createRepositoryCard host (.record repo) = .ok
            { className := "card repo-card"
              innerHTML :=
                [.lit "\n            <div class=\"repo-header\">\n                <a href=\"",
                 .val repo.html_url,
                 .lit "\" target=\"_blank\" class=\"repo-name\">\n                    ",
                 .val repo.name,
                 .lit "\n                </a>\n            </div>\n            <p class=\"repo-description\">\n                ",
                 .val (jsOr repo.description (.str "No description available")),
                 .lit "\n            </p>\n            <div class=\"repo-footer\">\n                ",
                 .lit "\n                <div class=\"repo-stats\">\n                    <div class=\"repo-stat\">\n                        <span>⭐</span>\n                        <span>",
                 .val repo.stargazers_count,
                 .lit "</span>\n                    </div>\n                    <div class=\"repo-stat\">\n                        <span>🔀</span>\n                        <span>",
                 .val repo.forks_count,
                 .lit "</span>\n                    </div>\n                </div>\n                <div class=\"repo-updated\">\n                    Updated ",
                 .val (.str (updatedDate host repo)),
                 .lit "\n                </div>\n            </div>\n        "] }) := by
  refine ⟨?_, ?_, ?_⟩
  · cases h : truthy repo.language
    · simp [cardInnerHTML, languageIndicator, h]
    · simp [cardInnerHTML, languageIndicator, h]
  · intro h
    simp only [cardInnerHTML, languageIndicator, h, if_true]
    exact ⟨_, _, rfl⟩
  · intro h
    simp [createRepositoryCard, cardInnerHTML, languageIndicator, h]

/-- C8: `displayProfile` writes the bio of the record when there is one and
the placeholder `No bio available` when there is none; it writes the location
and shows the location element when there is one, and hides the element
(`display: none`) when there is none, whatever the page held before. A field
is there when its value is truthy, as `||` and `if` test it: `null`, a field
the record lacks and the empty string all count as missing. -/
theorem displayProfile_bio_location (host : Host) (u : UserData) (p : Page) :
    (truthy u.bio = true → (displayProfile host (.record u) p).page.userBio = u.bio)
      ∧ (truthy u.bio = false →
          (displayProfile host (.record u) p).page.userBio = .str "No bio available")
      ∧ (truthy u.location = true →
          (displayProfile host (.record u) p).page.userLocationText = u.location
            ∧ (displayProfile host (.record u) p).page.userLocationDisplay = "inline")
      ∧ (truthy u.location = false →
          (displayProfile host (.record u) p).page.userLocationDisplay = "none") := by
  refine ⟨?_, ?_, ?_, ?_⟩
  · intro h
    cases hl : truthy u.location <;>
      simp [displayProfile, Completion.page, showProfile, jsOr, h, hl]
  · intro h
    cases hl : truthy u.location <;>
      simp [displayProfile, Completion.page, showProfile, jsOr, h, hl]
  · intro h
    simp [displayProfile, Completion.page, showProfile, h]
  · intro h
    simp [displayProfile, Completion.page, showProfile, h]

/-! ## Profile and error together -/

/-- C4 at a repository response that is ok but whose body is not an array:
`displayProfile` has shown the profile when `reposData.forEach` throws, and the
`catch` block then shows the error region without hiding the profile, so the
search ends with both visible, whatever the page was before. -/
theorem handleSearch_profile_and_error (host : Host) (p : Page) (u : UserData)
    (userStatus reposStatus : Nat) (reposFirst : Bool)
    (hname : trim p.usernameInput ≠ "")
    (huser : 200 ≤ userStatus ∧ userStatus ≤ 299)
    (hrepos : 200 ≤ reposStatus ∧ reposStatus ≤ 299) :
    visible (handleSearch host
        ⟨.status userStatus (some (.record u)), .status reposStatus (some .notArray),
          reposFirst⟩ p).profile
      ∧ visible (handleSearch host
        ⟨.status userStatus (some (.record u)), .status reposStatus (some .notArray),
          reposFirst⟩ p).error := by
  rw [handleSearch_nonblank host _ p hname]
  simp only [fetchUserData, fetchUserRepositories, Response.ok, huser, hrepos, and_self,
    decide_True, Bool.not_true, Bool.false_eq_true, if_false, promiseAll, displayProfile,
    displayRepositories, handleSearchCatch]
  refine ⟨?_, ?_⟩
  · split_ifs <;> exact classListRemove_not_mem _ _
  · exact classListRemove_not_mem _ _

theorem handleSearch_profile_and_error_witness :
    ¬ (visible samplePage.profile ∧ visible samplePage.error)
      ∧ visible (handleSearch (fixedOffsetHost 0)
          ⟨.status 200 (some (.record sampleUser)), .status 200 (some .notArray), false⟩
          samplePage).profile
      ∧ visible (handleSearch (fixedOffsetHost 0)
          ⟨.status 200 (some (.record sampleUser)), .status 200 (some .notArray), false⟩
          samplePage).error :=
  ⟨by decide,
    handleSearch_profile_and_error (fixedOffsetHost 0) samplePage sampleUser 200 200 false
      (by decide) (by decide) (by decide)⟩


/-! ## Dates -/

theorem yearFromDay_spec (d : Int) :
    dayFromYear (yearFromDay d) ≤ d ∧ d < dayFromYear (yearFromDay d + 1) := by
  unfold yearFromDay
  simp only []
  have hb : 146097 * ((1970 + 400 * d / 146097) - 1970) ≤ 400 * d ∧
      400 * d < 146097 * ((1970 + 400 * d / 146097) - 1970) + 146097 := by omega
  generalize 1970 + 400 * d / 146097 = y at hb ⊢
  split_ifs with h1 h2
  · have e : y - 1 + 1 = y := by omega
    rw [e]
    refine ⟨?_, h1⟩
    unfold dayFromYear at *
    omega
  · refine ⟨h2, ?_⟩
    unfold dayFromYear at *
    omega
  · exact ⟨by omega, by omega⟩

theorem dayFromYear_mono {a b : Int} (h : a ≤ b) : dayFromYear a ≤ dayFromYear b := by
  unfold dayFromYear; omega

/-- The year of a day number is the one year whose first day is not after it
and whose successor starts after it. -/
theorem yearFromDay_unique (d y : Int) (h1 : dayFromYear y ≤ d)
    (h2 : d < dayFromYear (y + 1)) : yearFromDay d = y := by
  have hs := yearFromDay_spec d
  by_contra hne
  rcases lt_or_gt_of_ne hne with h | h
  · have := dayFromYear_mono (show yearFromDay d + 1 ≤ y by omega)
    omega
  · have := dayFromYear_mono (show y + 1 ≤ yearFromDay d by omega)
    omega

theorem dayFromYear_succ (y : Int) :
    dayFromYear (y + 1) = dayFromYear y + (if isLeapYear y = true then 366 else 365) := by
  unfold isLeapYear
  by_cases h4 : y % 4 = 0 <;> by_cases h100 : y % 100 = 0 <;> by_cases h400 : y % 400 = 0 <;>
    simp only [h4, h100, h400, ne_eq, not_true_eq_false, not_false_eq_true, if_true, if_false,
      Bool.false_eq_true] <;>
    unfold dayFromYear <;> omega

/-- The day within the year after the last day of month `m`. -/
theorem monthStart_succ (y : Int) (m : Nat) (hm : m < 12) :
    monthStart (isLeapYear y) m + daysInMonth y m
      = if m = 11 then (if isLeapYear y = true then 366 else 365)
        else monthStart (isLeapYear y) (m + 1) := by
  unfold monthStart daysInMonth
  generalize isLeapYear y = l
  cases l <;> interval_cases m <;> rfl

theorem monthFromTime_of_bounds (t : Int) (m : Nat) (hm : m < 12)
    (hlo : monthStart (isLeapYear (yearFromTime t)) m ≤ dayWithinYear t)
    (hhi : dayWithinYear t < monthStart (isLeapYear (yearFromTime t)) m
      + daysInMonth (yearFromTime t) m) :
    monthFromTime t = m := by
  unfold monthFromTime
  unfold monthStart daysInMonth at *
  generalize dayWithinYear t = w at *
  generalize isLeapYear (yearFromTime t) = l at *
  cases l <;> interval_cases m <;> dsimp only at hlo hhi ⊢ <;>
    simp only [↓reduceIte, Bool.false_eq_true] at hlo hhi ⊢ <;>
    repeat (first | rw [if_pos (by omega)] | rw [if_neg (by omega)])

theorem monthStart_range (y : Int) (m : Nat) (hm : m < 12) :
    0 ≤ monthStart (isLeapYear y) m
      ∧ monthStart (isLeapYear y) m + daysInMonth y m
          ≤ (if isLeapYear y = true then 366 else 365) := by
  unfold monthStart daysInMonth
  generalize isLeapYear y = l
  cases l <;> interval_cases m <;> decide

/-- A time value on day `makeDay y m d`, for a date `d` of month `m` of year
`y`, has that year, month and date. -/
theorem civil_of_day (t y : Int) (m : Nat) (d : Int) (hm : m < 12) (hd1 : 1 ≤ d)
    (hd2 : d ≤ daysInMonth y m) (ht : day t = makeDay y m d) :
    yearFromTime t = y ∧ monthFromTime t = m ∧ dateFromTime t = d := by
  have hsucc := dayFromYear_succ y
  have hr := monthStart_range y m hm
  have hy : yearFromTime t = y := by
    unfold yearFromTime
    apply yearFromDay_unique
    · rw [ht]; unfold makeDay; omega
    · rw [ht, hsucc]; unfold makeDay; omega
  have hw : dayWithinYear t = monthStart (isLeapYear y) m + d - 1 := by
    unfold dayWithinYear
    rw [hy, ht]; unfold makeDay; omega
  have hmo : monthFromTime t = m := by
    apply monthFromTime_of_bounds t m hm
    · rw [hy, hw]; omega
    · rw [hy, hw]; omega
  refine ⟨hy, hmo, ?_⟩
  unfold dateFromTime
  rw [hmo, hy, hw]
  omega

theorem digitValue_le {c : Char} {v : Nat} (h : digitValue c = some v) : v ≤ 9 := by
  unfold digitValue at h
  split_ifs at h with hc
  simp only [Option.some.injEq] at h
  omega

theorem digitsValue_four_le {a b c d : Char} {y : Nat}
    (h : digitsValue [a, b, c, d] = some y) : y ≤ 9999 := by
  unfold digitsValue at h
  simp only [List.foldl, Option.some_bind] at h
  rcases ha : digitValue a with _ | va
  · simp [ha] at h
  rcases hb : digitValue b with _ | vb
  · simp [ha, hb] at h
  rcases hc : digitValue c with _ | vc
  · simp [ha, hb, hc] at h
  rcases hd : digitValue d with _ | vd
  · simp [ha, hb, hc, hd] at h
  simp [ha, hb, hc, hd] at h
  have := digitValue_le ha
  have := digitValue_le hb
  have := digitValue_le hc
  have := digitValue_le hd
  omega

/-- What a string read by `parseDateTime` guarantees about its fields. -/
theorem parseDateTime_some {s : String} {f : DateFields} (h : parseDateTime s = some f) :
    f.year ≤ 9999 ∧ 1 ≤ f.month ∧ f.month ≤ 12 ∧ 1 ≤ f.date
      ∧ f.date ≤ daysInMonth f.year (f.month - 1)
      ∧ f.hour ≤ 23 ∧ f.minute ≤ 59 ∧ f.second ≤ 59 := by
  unfold parseDateTime at h
  split at h
  · split_ifs at h
    split at h
    · rename_i hy _ _ _ _ _
      split_ifs at h with hb
      simp only [Option.some.injEq] at h
      subst h
      exact ⟨digitsValue_four_le hy, hb.1, hb.2.1, hb.2.2.1, hb.2.2.2.1, hb.2.2.2.2.1,
        hb.2.2.2.2.2.1, hb.2.2.2.2.2.2⟩
    · exact absurd h (by simp)
  · exact absurd h (by simp)

theorem timeClip_timeValue {f : DateFields} (hy : f.year ≤ 9999) (hm1 : 1 ≤ f.month)
    (hm2 : f.month ≤ 12) (hd : f.date ≤ 31) (hh : f.hour ≤ 23) (hn : f.minute ≤ 59)
    (hs : f.second ≤ 59) : timeClip f.timeValue = some f.timeValue := by
  have hr := monthStart_range f.year (f.month - 1) (by omega)
  unfold timeClip
  rw [if_pos]
  unfold DateFields.timeValue makeDate makeDay makeTime msPerDay dayFromYear
  generalize monthStart (isLeapYear f.year) (f.month - 1) = ms at hr
  split_ifs at hr <;> omega

/-- The local year, month and date of the instant a date-time string names, on
a browser where local time is `shift` whole days ahead of the UTC date. -/
theorem local_fields (host : Host) {f : DateFields} (hm1 : 1 ≤ f.month) (hm2 : f.month ≤ 12)
    (hlo : 1 ≤ (f.date : Int)
      + (makeTime f.hour f.minute f.second + host.localTZA f.timeValue) / msPerDay)
    (hhi : (f.date : Int)
      + (makeTime f.hour f.minute f.second + host.localTZA f.timeValue) / msPerDay
        ≤ daysInMonth f.year (f.month - 1)) :
    yearFromTime (localTime host f.timeValue) = f.year
      ∧ monthFromTime (localTime host f.timeValue) = f.month - 1
      ∧ dateFromTime (localTime host f.timeValue) = (f.date : Int)
          + (makeTime f.hour f.minute f.second + host.localTZA f.timeValue) / msPerDay := by
  apply civil_of_day _ _ _ _ (by omega) hlo hhi
  unfold localTime day
  generalize host.localTZA f.timeValue = off
  unfold DateFields.timeValue makeDate makeDay msPerDay
  generalize makeTime (↑f.hour) (↑f.minute) (↑f.second) = tod
  generalize dayFromYear ↑f.year = a
  generalize monthStart (isLeapYear ↑f.year) (f.month - 1) = b
  omega

/-- The two formatted dates of a date-time string whose local date falls in
the month the string names. -/
theorem formatted_dates (host : Host) {s : String} {f : DateFields}
    (hparse : parseDateTime s = some f) (hyear : 1 ≤ f.year)
    (hlo : 1 ≤ (f.date : Int)
      + (makeTime f.hour f.minute f.second + host.localTZA f.timeValue) / msPerDay)
    (hhi : (f.date : Int)
      + (makeTime f.hour f.minute f.second + host.localTZA f.timeValue) / msPerDay
        ≤ daysInMonth f.year (f.month - 1)) :
    toLocaleDateStringYearMonth host (newDate host (.str s))
        = monthLong (f.month - 1) ++ " " ++ decimal f.year
      ∧ toLocaleDateStringYearMonthDay host (newDate host (.str s))
        = monthShort (f.month - 1) ++ " "
          ++ decimal ((f.date : Int)
            + (makeTime f.hour f.minute f.second + host.localTZA f.timeValue) / msPerDay).toNat
          ++ ", " ++ decimal f.year := by
  obtain ⟨hy, hm1, hm2, hd1, hd2, hh, hn, hs⟩ := parseDateTime_some hparse
  have hd31 : f.date ≤ 31 := by
    have : daysInMonth f.year (f.month - 1) ≤ 31 := by
      unfold daysInMonth; split <;> (try split_ifs) <;> omega
    omega
  obtain ⟨e1, e2, e3⟩ := local_fields host hm1 hm2 hlo hhi
  have hyt : yearText host (f.year : Int) = decimal f.year := by
    unfold yearText
    rw [if_pos (by omega)]
    simp
  simp only [newDate, dateParse, hparse, timeClip_timeValue hy hm1 hm2 hd31 hh hn hs,
    toLocaleDateStringYearMonth, toLocaleDateStringYearMonthDay, e1, e2, e3, hyt, and_self]

theorem displayProfile_userJoined (host : Host) (u : UserData) (p : Page) :
    (displayProfile host (.record u) p).page.userJoined
      = [.lit "Joined ", .val (.str (joinDate host u))] := by
  cases hl : truthy u.location <;> simp [displayProfile, Completion.page, showProfile, hl]

theorem cardInnerHTML_updated (host : Host) (repo : Repo) :
    [Seg.lit "</span>\n                    </div>\n                </div>\n                <div class=\"repo-updated\">\n                    Updated ",
     Seg.val (.str (updatedDate host repo))] <:+: cardInnerHTML host repo := by
  unfold cardInnerHTML
  refine List.IsInfix.trans ?_ (List.IsSuffix.isInfix (List.suffix_append _ _))
  exact ⟨[_, _, _, _], [_], rfl⟩

/-- C9 as stated fails on a browser at UTC+14:00: there the instant
`2023-03-05T10:00:00Z` is midnight of March 6, and the card reads
`Updated Mar 6, 2023`. -/
theorem date_rendering_utc_plus_14 :
    sampleRepo.updated_at = .str "2023-03-05T10:00:00Z"
      ∧ updatedDate (fixedOffsetHost 840) sampleRepo = "Mar 6, 2023"
      ∧ Seg.val (.str "Mar 6, 2023") ∈ cardInnerHTML (fixedOffsetHost 840) sampleRepo
      ∧ Seg.val (.str "Mar 5, 2023") ∉ cardInnerHTML (fixedOffsetHost 840) sampleRepo := by
  decide

theorem handleSearch_blank_input_witness :
    (∀ c ∈ ({ samplePage with usernameInput := " \t " } : Page).usernameInput.data,
        isWhiteSpace c = true)
      ∧ handleSearch (fixedOffsetHost 0)
          ⟨.status 200 (some (.record sampleUser)),
           .status 200 (some (.array [.record sampleRepo])), false⟩
          { samplePage with usernameInput := " \t " }
        = { samplePage with
            usernameInput := " \t "
            alerts := ["Please enter a GitHub username"] } :=
  ⟨by decide,
    (handleSearch_blank_input (fixedOffsetHost 0)
      ⟨.status 200 (some (.record sampleUser)),
       .status 200 (some (.array [.record sampleRepo])), false⟩
      { samplePage with usernameInput := " \t " } (by decide)).1⟩

theorem handleSearch_success_witness :
    trim samplePage.usernameInput = "octocat"
      ∧ visible (handleSearch (fixedOffsetHost 0)
          ⟨.status 200 (some (.record sampleUser)),
           .status 200 (some (.array ([sampleRepo, sampleRepo].map RepoItem.record))), false⟩
          samplePage).profile
      ∧ visible (handleSearch (fixedOffsetHost 0)
          ⟨.status 200 (some (.record sampleUser)),
           .status 200 (some (.array ([sampleRepo, sampleRepo].map RepoItem.record))), false⟩
          samplePage).repositories
      ∧ ¬ visible (handleSearch (fixedOffsetHost 0)
          ⟨.status 200 (some (.record sampleUser)),
           .status 200 (some (.array ([sampleRepo, sampleRepo].map RepoItem.record))), false⟩
          samplePage).error
      ∧ ¬ visible (handleSearch (fixedOffsetHost 0)
          ⟨.status 200 (some (.record sampleUser)),
           .status 200 (some (.array ([sampleRepo, sampleRepo].map RepoItem.record))), false⟩
          samplePage).loading :=
  ⟨by decide,
    handleSearch_success (fixedOffsetHost 0) samplePage sampleUser [sampleRepo, sampleRepo]
      200 200 false (by decide) (by decide) (by decide)⟩

theorem handleSearch_request_failure_witness :
    trim samplePage.usernameInput = "octocat"
      ∧ (Response.status 404 none : Response UserBody).ok = false
      ∧ visible (handleSearch (fixedOffsetHost 0)
          ⟨.status 404 none, .status 200 (some (.array [.record sampleRepo])), false⟩
          samplePage).error
      ∧ ¬ visible (handleSearch (fixedOffsetHost 0)
          ⟨.status 404 none, .status 200 (some (.array [.record sampleRepo])), false⟩
          samplePage).profile
      ∧ ¬ visible (handleSearch (fixedOffsetHost 0)
          ⟨.status 404 none, .status 200 (some (.array [.record sampleRepo])), false⟩
          samplePage).repositories
      ∧ ¬ visible (handleSearch (fixedOffsetHost 0)
          ⟨.status 404 none, .status 200 (some (.array [.record sampleRepo])), false⟩
          samplePage).loading
      ∧ (handleSearch (fixedOffsetHost 0)
          ⟨.status 404 none, .status 200 (some (.array [.record sampleRepo])), false⟩
          samplePage).reposContainer = [] :=
  ⟨by decide, by decide,
    (handleSearch_request_failure (fixedOffsetHost 0)
      ⟨.status 404 none, .status 200 (some (.array [.record sampleRepo])), false⟩
      samplePage (by decide) (Or.inl (by decide))).2.1,
    (handleSearch_request_failure (fixedOffsetHost 0)
      ⟨.status 404 none, .status 200 (some (.array [.record sampleRepo])), false⟩
      samplePage (by decide) (Or.inl (by decide))).2.2.1,
    (handleSearch_request_failure (fixedOffsetHost 0)
      ⟨.status 404 none, .status 200 (some (.array [.record sampleRepo])), false⟩
      samplePage (by decide) (Or.inl (by decide))).2.2.2.1,
    (handleSearch_request_failure (fixedOffsetHost 0)
      ⟨.status 404 none, .status 200 (some (.array [.record sampleRepo])), false⟩
      samplePage (by decide) (Or.inl (by decide))).2.2.2.2,
    by decide⟩

/-- The day within the year of any time value lies in its year. -/
theorem dayWithinYear_range (t : Int) :
    0 ≤ dayWithinYear t
      ∧ dayWithinYear t < (if isLeapYear (yearFromTime t) = true then 366 else 365) := by
  have hs := yearFromDay_spec (day t)
  have hsucc := dayFromYear_succ (yearFromTime t)
  unfold dayWithinYear
  unfold yearFromTime at *
  constructor <;> omega

/-- The month of a time value, by the part of the year its day lies in; `L` is
1 in a leap year and 0 otherwise. -/
theorem monthFromTime_cases (t : Int) (L : Int) (m : Nat)
    (hL : L = if isLeapYear (yearFromTime t) = true then 1 else 0)
    (hm : monthFromTime t = m) :
    (m = 0 ∧ dayWithinYear t < 31)
        ∨ (m = 1 ∧ 31 ≤ dayWithinYear t ∧ dayWithinYear t < 59 + L)
        ∨ (m = 2 ∧ 59 + L ≤ dayWithinYear t ∧ dayWithinYear t < 90 + L)
        ∨ (m = 3 ∧ 90 + L ≤ dayWithinYear t ∧ dayWithinYear t < 120 + L)
        ∨ (m = 4 ∧ 120 + L ≤ dayWithinYear t ∧ dayWithinYear t < 151 + L)
        ∨ (m = 5 ∧ 151 + L ≤ dayWithinYear t ∧ dayWithinYear t < 181 + L)
        ∨ (m = 6 ∧ 181 + L ≤ dayWithinYear t ∧ dayWithinYear t < 212 + L)
        ∨ (m = 7 ∧ 212 + L ≤ dayWithinYear t ∧ dayWithinYear t < 243 + L)
        ∨ (m = 8 ∧ 243 + L ≤ dayWithinYear t ∧ dayWithinYear t < 273 + L)
        ∨ (m = 9 ∧ 273 + L ≤ dayWithinYear t ∧ dayWithinYear t < 304 + L)
        ∨ (m = 10 ∧ 304 + L ≤ dayWithinYear t ∧ dayWithinYear t < 334 + L)
        ∨ (m = 11 ∧ 334 + L ≤ dayWithinYear t) := by
  unfold monthFromTime at hm
  simp only [] at hm
  rw [← hL] at hm
  generalize dayWithinYear t = w at hm ⊢
  by_cases c0 : w < 31
  · rw [if_pos c0] at hm
    exact Or.inl ⟨hm.symm, by omega⟩
  rw [if_neg c0] at hm
  by_cases c1 : w < 59 + L
  · rw [if_pos c1] at hm
    exact Or.inr (Or.inl ⟨hm.symm, by omega, by omega⟩)
  rw [if_neg c1] at hm
  by_cases c2 : w < 90 + L
  · rw [if_pos c2] at hm
    exact Or.inr (Or.inr (Or.inl ⟨hm.symm, by omega, by omega⟩))
  rw [if_neg c2] at hm
  by_cases c3 : w < 120 + L
  · rw [if_pos c3] at hm
    exact Or.inr (Or.inr (Or.inr (Or.inl ⟨hm.symm, by omega, by omega⟩)))
  rw [if_neg c3] at hm
  by_cases c4 : w < 151 + L
  · rw [if_pos c4] at hm
    exact Or.inr (Or.inr (Or.inr (Or.inr (Or.inl ⟨hm.symm, by omega, by omega⟩))))
  rw [if_neg c4] at hm
  by_cases c5 : w < 181 + L
  · rw [if_pos c5] at hm
    exact Or.inr (Or.inr (Or.inr (Or.inr (Or.inr (Or.inl ⟨hm.symm, by omega, by omega⟩)))))
  rw [if_neg c5] at hm
  by_cases c6 : w < 212 + L
  · rw [if_pos c6] at hm
    exact Or.inr (Or.inr (Or.inr (Or.inr (Or.inr (Or.inr (Or.inl ⟨hm.symm, by omega, by omega⟩))))))
  rw [if_neg c6] at hm
  by_cases c7 : w < 243 + L
  · rw [if_pos c7] at hm
    exact Or.inr (Or.inr (Or.inr (Or.inr (Or.inr (Or.inr (Or.inr (Or.inl ⟨hm.symm, by omega, by omega⟩)))))))
  rw [if_neg c7] at hm
  by_cases c8 : w < 273 + L
  · rw [if_pos c8] at hm
    exact Or.inr (Or.inr (Or.inr (Or.inr (Or.inr (Or.inr (Or.inr (Or.inr (Or.inl ⟨hm.symm, by omega, by omega⟩))))))))
  rw [if_neg c8] at hm
  by_cases c9 : w < 304 + L
  · rw [if_pos c9] at hm
    exact Or.inr (Or.inr (Or.inr (Or.inr (Or.inr (Or.inr (Or.inr (Or.inr (Or.inr (Or.inl ⟨hm.symm, by omega, by omega⟩)))))))))
  rw [if_neg c9] at hm
  by_cases c10 : w < 334 + L
  · rw [if_pos c10] at hm
    exact Or.inr (Or.inr (Or.inr (Or.inr (Or.inr (Or.inr (Or.inr (Or.inr (Or.inr (Or.inr (Or.inl ⟨hm.symm, by omega, by omega⟩))))))))))
  rw [if_neg c10] at hm
  exact Or.inr (Or.inr (Or.inr (Or.inr (Or.inr (Or.inr (Or.inr (Or.inr (Or.inr (Or.inr (Or.inr (⟨hm.symm, by omega⟩)))))))))))

/-- The year, month and date of any time value form a date of the calendar,
and the time value lies on the day `makeDay` gives that date. -/
theorem calendar_date_of_time (t : Int) :
    monthFromTime t < 12 ∧ 1 ≤ dateFromTime t
      ∧ dateFromTime t ≤ daysInMonth (yearFromTime t) (monthFromTime t)
      ∧ day t = makeDay (yearFromTime t) (monthFromTime t) (dateFromTime t) := by
  obtain ⟨h0, h1⟩ := dayWithinYear_range t
  have key := monthFromTime_cases t _ (monthFromTime t) rfl rfl
  have hw : dayWithinYear t = day t - dayFromYear (yearFromTime t) := rfl
  unfold dateFromTime makeDay
  generalize dayWithinYear t = w at *
  generalize monthFromTime t = m at *
  rcases key with ⟨rfl, h⟩ | ⟨rfl, h⟩ | ⟨rfl, h⟩ | ⟨rfl, h⟩ | ⟨rfl, h⟩ | ⟨rfl, h⟩ | ⟨rfl, h⟩
    | ⟨rfl, h⟩ | ⟨rfl, h⟩ | ⟨rfl, h⟩ | ⟨rfl, h⟩ | ⟨rfl, h⟩ <;>
    simp only [monthStart, daysInMonth] at * <;>
    generalize isLeapYear (yearFromTime t) = l at * <;>
    cases l <;>
    simp only [↓reduceIte, Bool.false_eq_true] at * <;>
    omega

/-- C9, as the code has it: dates are formatted in the local time of the
browser. For every value of `created_at` or `updated_at` that `new Date` reads
as an instant, `displayProfile` renders `Joined`, the full English month name
and the year, and `createRepositoryCard` renders `Updated`, the abbreviated
month, the day and the year, where year, month and day are the calendar date
of the day on which that instant falls in local time; years from 1 on are
written in decimal. Every timestamp `YYYY-MM-DDTHH:mm:ssZ` is read as the UTC
instant it names, so its local day is the named day moved by the whole days
the local offset adds to its time of day. So `2008-01-14T04:33:35Z` renders as
`Joined January 2008` whenever that instant lies in January 2008 in local
time, as it does at every offset from UTC-12:00 to UTC+14:00, and
`2023-03-05T10:00:00Z` renders as `Updated Mar 5, 2023` whenever it lies on
5 March 2023 in local time, at every offset from UTC-10:00 up to, not
including, UTC+14:00. -/
theorem date_rendering_local_time (host : Host) :
    (∀ (v : JSVal) (t : Int), newDate host v = some t →
        ∃ (y : Int) (m : Nat) (d : Int), m < 12 ∧ 1 ≤ d ∧ d ≤ daysInMonth y m
          ∧ day (localTime host t) = makeDay y m d
          ∧ (∀ (u : UserData) (p : Page), u.created_at = v →
              (displayProfile host (.record u) p).page.userJoined
                = [.lit "Joined ", .val (.str (monthLong m ++ " " ++ yearText host y))])
          ∧ (∀ repo : Repo, repo.updated_at = v →
              [Seg.lit "</span>\n                    </div>\n                </div>\n                <div class=\"repo-updated\">\n                    Updated ",
               Seg.val (.str (monthShort m ++ " " ++ decimal d.toNat ++ ", "
                 ++ yearText host y))] <:+: cardInnerHTML host repo))
      ∧ (∀ y : Int, 1 ≤ y → yearText host y = decimal y.toNat)
      ∧ (∀ (s : String) (f : DateFields), parseDateTime s = some f →
          newDate host (.str s) = some f.timeValue
            ∧ day (localTime host f.timeValue)
              = makeDay f.year (f.month - 1) f.date
                + (makeTime f.hour f.minute f.second + host.localTZA f.timeValue) / msPerDay)
      ∧ (-1139615000 ≤ host.localTZA (DateFields.timeValue ⟨2008, 1, 14, 4, 33, 35⟩) →
          host.localTZA (DateFields.timeValue ⟨2008, 1, 14, 4, 33, 35⟩) < 1538785000 →
          ∀ (u : UserData) (p : Page), u.created_at = .str "2008-01-14T04:33:35Z" →
            (displayProfile host (.record u) p).page.userJoined
              = [.lit "Joined ", .val (.str "January 2008")])
      ∧ (-36000000 ≤ host.localTZA (DateFields.timeValue ⟨2023, 3, 5, 10, 0, 0⟩) →
          host.localTZA (DateFields.timeValue ⟨2023, 3, 5, 10, 0, 0⟩) < 50400000 →
          ∀ repo : Repo, repo.updated_at = .str "2023-03-05T10:00:00Z" →
            [Seg.lit "</span>\n                    </div>\n                </div>\n                <div class=\"repo-updated\">\n                    Updated ",
             Seg.val (.str "Mar 5, 2023")] <:+: cardInnerHTML host repo) := by
  refine ⟨?_, ?_, ?_, ?_, ?_⟩
  · intro v t hv
    obtain ⟨hm, hd1, hd2, hday⟩ := calendar_date_of_time (localTime host t)
    refine ⟨_, _, _, hm, hd1, hd2, hday, ?_, ?_⟩
    · intro u p hu
      rw [displayProfile_userJoined]
      simp only [joinDate, hu, hv, toLocaleDateStringYearMonth]
    · intro repo hr
      have hcard := cardInnerHTML_updated host repo
      simp only [updatedDate, hr, hv, toLocaleDateStringYearMonthDay] at hcard
      exact hcard
  · intro y hy
    unfold yearText
    rw [if_pos hy]
  · intro s f hparse
    obtain ⟨hy, hm1, hm2, hd1, hd2, hh, hn, hs⟩ := parseDateTime_some hparse
    have hd31 : f.date ≤ 31 := by
      have : daysInMonth f.year (f.month - 1) ≤ 31 := by
        unfold daysInMonth; split <;> (try split_ifs) <;> omega
      omega
    refine ⟨?_, ?_⟩
    · simp only [newDate, dateParse, hparse, timeClip_timeValue hy hm1 hm2 hd31 hh hn hs]
    · unfold localTime day
      generalize host.localTZA f.timeValue = off
      unfold DateFields.timeValue makeDate makeDay msPerDay
      generalize makeTime (↑f.hour) (↑f.minute) (↑f.second) = tod
      generalize dayFromYear ↑f.year = a
      generalize monthStart (isLeapYear ↑f.year) (f.month - 1) = b
      omega
  · intro hlo hhi u p hu
    have hparse : parseDateTime "2008-01-14T04:33:35Z" = some ⟨2008, 1, 14, 4, 33, 35⟩ := by
      decide
    have hmt : makeTime (4 : Nat) (33 : Nat) (35 : Nat) = 16415000 := by decide
    have hdm : daysInMonth (2008 : Nat) (1 - 1) = 31 := by decide
    obtain ⟨g1, _⟩ := formatted_dates host hparse (by decide)
      (by simp only [hmt, msPerDay]; omega) (by simp only [hmt, msPerDay, hdm]; omega)
    rw [displayProfile_userJoined]
    simp only [joinDate, hu, g1]
    decide
  · intro hlo hhi repo hr
    have hparse : parseDateTime "2023-03-05T10:00:00Z" = some ⟨2023, 3, 5, 10, 0, 0⟩ := by
      decide
    have hmt : makeTime (10 : Nat) (0 : Nat) (0 : Nat) = 36000000 := by decide
    have hdm : daysInMonth (2023 : Nat) (3 - 1) = 31 := by decide
    have hshift : (makeTime (10 : Nat) (0 : Nat) (0 : Nat)
        + host.localTZA (DateFields.timeValue ⟨2023, 3, 5, 10, 0, 0⟩)) / msPerDay = 0 := by
      simp only [hmt, msPerDay]; omega
    obtain ⟨_, g2⟩ := formatted_dates host hparse (by decide)
      (by simp only [hshift]; decide) (by simp only [hshift, hdm]; decide)
    have hcard := cardInnerHTML_updated host repo
    simp only [updatedDate, hr, g2, hshift] at hcard
    exact hcard

theorem date_rendering_local_time_witness :
    (displayProfile (fixedOffsetHost (-300)) (.record sampleUser) samplePage).page.userJoined
        = [.lit "Joined ", .val (.str "January 2008")]
      ∧ [Seg.lit "</span>\n                    </div>\n                </div>\n                <div class=\"repo-updated\">\n                    Updated ",
         Seg.val (.str "Mar 5, 2023")] <:+: cardInnerHTML (fixedOffsetHost 330) sampleRepo :=
  ⟨(date_rendering_local_time (fixedOffsetHost (-300))).2.2.2.1 (by decide) (by decide)
      sampleUser samplePage rfl,
    (date_rendering_local_time (fixedOffsetHost 330)).2.2.2.2 (by decide) (by decide)
      sampleRepo rfl⟩

/-- An instant that falls in another month and year in local time: at
UTC+01:00 the timestamp `2023-12-31T23:30:00Z` is rendered with the local
date, 1 January 2024. -/
theorem date_rendering_year_end :
    joinDate (fixedOffsetHost 60) { sampleUser with created_at := .str "2023-12-31T23:30:00Z" }
        = "January 2024"
      ∧ updatedDate (fixedOffsetHost 60)
          { sampleRepo with updated_at := .str "2023-12-31T23:30:00Z" } = "Jan 1, 2024" := by
  decide
end GitHubPortfolio
